import Mathlib

/-!
Verification of the CSV analytics dashboard core: the chart data
transformers (prepareBarChartData, prepareLineChartData, preparePieChartData,
prepareScatterData), the CSV validator and column type inferencer
(validateCSV, inferColumnTypes), and the AI client rate limiter and retry
policy (canMakeApiCall, retryWithBackoff, analyzeData, suggestChartWithAI).

The JavaScript source is embedded shallowly:
 - a CSV cell value (produced by Papa.parse with dynamicTyping) is null,
   a boolean, a number, or a string, modelled by the inductive Value;
   undefined (a missing key) behaves like null in every embedded code path
   and is folded into Value.vNull;
 - JS numbers are modelled as rationals; the embedded claims do not hinge
   on binary floating point artifacts (noted inline where they could);
 - host string and date functions (parseFloat, Number, new Date, toString,
   localeCompare, toLowerCase, trim) are modelled by executable functions
   over character lists covering the formats this application exercises;
 - Array.prototype.sort with a comparator is modelled by a stable insertion
   sort; for a consistent comparator this agrees with any stable sort,
   hence with the host sort.
-/

/-- A parsed CSV cell: null/undefined, boolean, number or string. -/
inductive Value where
  | vNull : Value
  | vBool (b : Bool) : Value
  | vNum (q : ℚ) : Value
  | vStr (s : String) : Value
deriving DecidableEq

/-- A parsed CSV row: an object mapping column names to cell values,
in key insertion order. -/
abbrev Row := List (String × Value)

/-- row[column]: the value stored under a column name; a missing key is
undefined, which behaves like null in every embedded path. -/
def getV (r : Row) (c : String) : Value :=
  match r.find? (fun kv => kv.1 == c) with
  | some kv => kv.2
  | none => Value.vNull

/-! ### Models of host string and number primitives -/

/-- Digit-string value: folds decimal digits into a natural number. -/
def digitsToNat (cs : List Char) : ℕ :=
  cs.foldl (fun n c => n * 10 + (c.toNat - 48)) 0

/-- All-digit, nonempty component parse (used by the date parser model). -/
def natOfDigits (cs : List Char) : Option ℕ :=
  if cs ≠ [] ∧ cs.all Char.isDigit then some (digitsToNat cs) else none

/-- 10 ^ n as a rational, built from a Nat power so it evaluates. -/
def pow10 (n : ℕ) : ℚ := ((10 ^ n : ℕ) : ℚ)

/-- Math.max over rationals. -/
def qMax (a b : ℚ) : ℚ := if a ≤ b then b else a

/-- Math.min over rationals. -/
def qMin (a b : ℚ) : ℚ := if a ≤ b then a else b

/-- Math.min(...list) of a nonempty list; the empty case (Infinity in JS)
is unreachable in the embedded paths and returns 0. -/
def jsMinList (l : List ℚ) : ℚ :=
  match l with
  | [] => 0
  | x :: xs => xs.foldl qMin x

/-- Math.max(...list) of a nonempty list; empty case unreachable. -/
def jsMaxList (l : List ℚ) : ℚ :=
  match l with
  | [] => 0
  | x :: xs => xs.foldl qMax x

/-- Math.min over integer timestamps (nonempty; empty case unreachable). -/
def jsMinListI (l : List ℤ) : ℤ :=
  match l with
  | [] => 0
  | x :: xs => xs.foldl (fun a b => if a ≤ b then a else b) x

/-- Math.max over integer timestamps (nonempty; empty case unreachable). -/
def jsMaxListI (l : List ℤ) : ℤ :=
  match l with
  | [] => 0
  | x :: xs => xs.foldl (fun a b => if a ≤ b then b else a) x

/-- Math.round(q * 100) / 100, the 2-decimal rounding used by the chart
transformers. JS Math.round is floor(x + 1/2). -/
def round2 (q : ℚ) : ℚ := (⌊q * 100 + 1/2⌋ : ℚ) / 100

/-- String.prototype.trim model. -/
def trimStr (s : String) : String :=
  ⟨((s.data.dropWhile Char.isWhitespace).reverse.dropWhile Char.isWhitespace).reverse⟩

/-- String.prototype.toLowerCase model (ASCII, enough for the aggregation
method names compared against it). -/
def toLowerStr (s : String) : String := ⟨s.data.map Char.toLower⟩

/-- The numeric prefix parse shared by the parseFloat and Number models:
optional sign, integer digits, optional fraction, optional exponent.
Returns the parsed value and the unconsumed suffix. -/
def parseExpTail (r : List Char) : Option (ℤ × List Char) :=
  match r with
  | '-' :: r2 =>
      let ds := r2.takeWhile Char.isDigit
      if ds = [] then none else some (-(digitsToNat ds : ℤ), r2.dropWhile Char.isDigit)
  | '+' :: r2 =>
      let ds := r2.takeWhile Char.isDigit
      if ds = [] then none else some ((digitsToNat ds : ℤ), r2.dropWhile Char.isDigit)
  | _ =>
      let ds := r.takeWhile Char.isDigit
      if ds = [] then none else some ((digitsToNat ds : ℤ), r.dropWhile Char.isDigit)

/-- Apply a decimal exponent to a mantissa. -/
def applyExp (q : ℚ) (e : ℤ) : ℚ :=
  if 0 ≤ e then q * pow10 e.toNat else q / pow10 (-e).toNat

def parseDecPrefix (cs0 : List Char) : Option (ℚ × List Char) :=
  let signAndRest : ℚ × List Char :=
    match cs0 with
    | '-' :: rest => (-1, rest)
    | '+' :: rest => (1, rest)
    | _ => (1, cs0)
  let sgn := signAndRest.1
  let cs1 := signAndRest.2
  let intPart := cs1.takeWhile Char.isDigit
  let rest1 := cs1.dropWhile Char.isDigit
  let fracAndRest : List Char × List Char :=
    match rest1 with
    | '.' :: r => (r.takeWhile Char.isDigit, r.dropWhile Char.isDigit)
    | _ => ([], rest1)
  let fracPart := fracAndRest.1
  let rest2 := fracAndRest.2
  if intPart = [] ∧ fracPart = [] then none
  else
    let mantissa : ℚ := (digitsToNat intPart : ℚ) + (digitsToNat fracPart : ℚ) / pow10 fracPart.length
    match rest2 with
    | 'e' :: r =>
        match parseExpTail r with
        | some er => some (applyExp (sgn * mantissa) er.1, er.2)
        | none => some (sgn * mantissa, rest2)
    | 'E' :: r =>
        match parseExpTail r with
        | some er => some (applyExp (sgn * mantissa) er.1, er.2)
        | none => some (sgn * mantissa, rest2)
    | _ => some (sgn * mantissa, rest2)

/-- parseFloat on a string: skip leading whitespace, take the longest
numeric prefix, NaN (none) when there is none. The Infinity literal,
which is not exercised by parsed CSV data, is not modelled. -/
def parseFloatStr (s : String) : Option ℚ :=
  (parseDecPrefix (s.data.dropWhile Char.isWhitespace)).map Prod.fst

def isHexDigitChar (c : Char) : Bool :=
  c.isDigit || ('a' ≤ c && c ≤ 'f') || ('A' ≤ c && c ≤ 'F')

def hexVal (c : Char) : ℕ :=
  if c.isDigit then c.toNat - 48
  else if 'a' ≤ c then c.toNat - 87
  else c.toNat - 55

def parseHexAll (ds : List Char) : Option ℚ :=
  if ds ≠ [] ∧ ds.all isHexDigitChar then
    some ((ds.foldl (fun n c => n * 16 + hexVal c) 0 : ℕ) : ℚ)
  else none

/-- Number(string): whole-string conversion; empty/whitespace-only is 0;
hex literals accepted; trailing garbage is NaN (none). Binary and octal
literals and Infinity, never produced by this pipeline, are not modelled. -/
def jsNumberStr (s : String) : Option ℚ :=
  let t := trimStr s
  if t = "" then some 0
  else
    match t.data with
    | '0' :: 'x' :: ds => parseHexAll ds
    | '0' :: 'X' :: ds => parseHexAll ds
    | _ =>
        match parseDecPrefix t.data with
        | some (q, []) => some q
        | _ => none

/-- Split a character list on a separator character (String.split model). -/
def splitOnCharList (sep : Char) : List Char → List (List Char)
  | [] => [[]]
  | c :: rest =>
      match splitOnCharList sep rest with
      | [] => if c = sep then [[], []] else [[c]]
      | h :: t => if c = sep then [] :: h :: t else (c :: h) :: t

/-- Calendar-date validity and an order-preserving integer encoding.
Only the order of encoded dates is consumed by the embedded claims
(comparator signs, min/max), so an order-isomorphic encoding stands in
for epoch milliseconds. -/
def dateEncode (y m d : ℕ) : Option ℤ :=
  if 1 ≤ m ∧ m ≤ 12 ∧ 1 ≤ d ∧ d ≤ 31 then
    some (((y * 12 + (m - 1)) * 31 + (d - 1) : ℕ) : ℤ)
  else none

/-- new Date(string) model for the formats this application exercises:
year-month-day (dash separated, 1-2 digit month/day accepted, as the host
parser accepts) and month/day/year (slash separated). Anything else is an
Invalid Date (none); in particular strings without digits never parse. -/
def parseDateStr (s : String) : Option ℤ :=
  match splitOnCharList '-' s.data with
  | [ys, ms, ds] =>
      match natOfDigits ys, natOfDigits ms, natOfDigits ds with
      | some y, some m, some d => dateEncode y m d
      | _, _, _ => none
  | _ =>
      match splitOnCharList '/' s.data with
      | [ms, ds, ys] =>
          match natOfDigits ms, natOfDigits ds, natOfDigits ys with
          | some m, some d, some y => dateEncode y m d
          | _, _, _ => none
      | _ => none

/-- new Date(value) for a cell value: numbers are epoch milliseconds
(invalid beyond the 8.64e15 range, fractional part truncated), booleans
coerce to 0/1, null coerces to 0, strings go through the date parser.
Cross-kind comparisons (a numeric key against a string key) may order
differently than the host, since the string encoding is order-isomorphic
rather than epoch-based; the embedded claims never compare across kinds. -/
def qAbs (q : ℚ) : ℚ := if q < 0 then -q else q

def jsTruncQ (q : ℚ) : ℤ := if 0 ≤ q then ⌊q⌋ else -⌊-q⌋

def jsNewDateV : Value → Option ℤ
  | Value.vNull => some 0
  | Value.vBool b => some (if b then 1 else 0)
  | Value.vNum q => if qAbs q ≤ 8640000000000000 then some (jsTruncQ q) else none
  | Value.vStr s => parseDateStr s

/-- parseFloat(value): numbers are themselves, strings are parsed,
booleans and null stringify to non-numeric text (NaN). -/
def jsParseFloat : Value → Option ℚ
  | Value.vNull => none
  | Value.vBool _ => none
  | Value.vNum q => some q
  | Value.vStr s => parseFloatStr s

/-- Decimal expansion of the fractional part of a rational, to a fuel
bound covering every decimal a parsed CSV numeral can denote. -/
def fracDigitsStr : ℚ → ℕ → String
  | _, 0 => ""
  | q, n + 1 =>
      if q = 0 then ""
      else
        let d := ⌊q * 10⌋
        String.singleton (Char.ofNat (48 + d.toNat)) ++ fracDigitsStr (q * 10 - (d : ℚ)) n

/-- String(number) model: sign, integer part, and decimal expansion.
Injective on the values this pipeline produces, which is all the grouping
code requires of it. -/
def jsNumToString (q : ℚ) : String :=
  let sign := if q < 0 then "-" else ""
  let a := qAbs q
  let ip := ⌊a⌋
  if a - (ip : ℚ) = 0 then sign ++ toString ip.toNat
  else sign ++ toString ip.toNat ++ "." ++ fracDigitsStr (a - (ip : ℚ)) 30

/-- String(value) coercion, as used for object property keys and the
name field of chart points. -/
def jsToString : Value → String
  | Value.vNull => "null"
  | Value.vBool b => if b then "true" else "false"
  | Value.vNum q => jsNumToString q
  | Value.vStr s => s

/-- Code-unit comparison of character lists: the sign model for the
default Array.sort comparator and for localeCompare (the host collation
agrees with code-unit order on the ASCII keys this pipeline sorts). -/
def charListCmp : List Char → List Char → ℤ
  | [], [] => 0
  | [], _ :: _ => -1
  | _ :: _, [] => 1
  | a :: as, b :: bs => if a < b then -1 else if b < a then 1 else charListCmp as bs

def strCmpQ (s t : String) : ℚ := ((charListCmp s.data t.data : ℤ) : ℚ)

/-! ### The stable comparator sort (Array.prototype.sort model) -/

/-- Insert x into l, placing it before the first element y with
comparator(x, y) < 0; ties keep the earlier element first (stability). -/
def jsInsert {α : Type} (c : α → α → ℚ) (x : α) : List α → List α
  | [] => [x]
  | y :: ys => if c x y < 0 then x :: y :: ys else y :: jsInsert c x ys

/-- Stable insertion sort by a JS-style numeric comparator. For consistent
comparators this coincides with the host (stable) Array.prototype.sort. -/
def jsSortBy {α : Type} (c : α → α → ℚ) : List α → List α
  | [] => []
  | x :: xs => jsInsert c x (jsSortBy c xs)

/-- Boolean pairwise-ordered check: every element relates to every later
element. -/
def chainAll {α : Type} (f : α → α → Bool) : List α → Bool
  | [] => true
  | x :: xs => xs.all (f x) && chainAll f xs

/-! ### Chart data transformers (chartDataHelpers module) -/

/-- A bar chart point: name, 2-decimal aggregated value, and the group
count/min/max the source attaches. -/
structure BarPoint where
  name : String
  value : ℚ
  count : ℕ
  minV : ℚ
  maxV : ℚ
deriving DecidableEq

/-- An accumulating bar group: the stringified X key, the pushed Y values
in row order, and the row count. -/
structure BarGroup where
  name : String
  values : List ℚ
  count : ℕ
deriving DecidableEq

/-- Add one (key, y) observation to the group accumulator. A new key is
appended; an existing key pushes onto its value list. This realises the
object accumulator of the source reduce; the claims proved below do not
depend on the group enumeration order (JS additionally fronts
integer-like property keys). -/
def barAdd (key : String) (yv : ℚ) : List BarGroup → List BarGroup
  | [] => [⟨key, [yv], 1⟩]
  | g :: gs =>
      if g.name = key then ⟨g.name, g.values ++ [yv], g.count + 1⟩ :: gs
      else g :: barAdd key yv gs

/-- One reduce step of prepareBarChartData: skip the row when the X value
is null/undefined or the Y value does not parseFloat, else add it to the
group keyed by String(xValue). -/
def barStep (x y : String) (acc : List BarGroup) (r : Row) : List BarGroup :=
  match getV r x, jsParseFloat (getV r y) with
  | Value.vNull, _ => acc
  | _, none => acc
  | xv, some yv => barAdd (jsToString xv) yv acc

def barGroups (d : List Row) (x y : String) : List BarGroup :=
  d.foldl (barStep x y) []

/-- The row-skip test of the bar grouping pass: X null/undefined or Y not
parsing as a number. -/
def barSkip (x y : String) (r : Row) : Bool :=
  (getV r x == Value.vNull) || !(jsParseFloat (getV r y)).isSome

/-- The aggregation switch of prepareBarChartData (default arm: sum). -/
def barAggregate (agg : String) (g : BarGroup) : ℚ :=
  if toLowerStr agg = "sum" then g.values.sum
  else if toLowerStr agg = "avg" ∨ toLowerStr agg = "average" then
    g.values.sum / (g.values.length : ℚ)
  else if toLowerStr agg = "count" then (g.count : ℚ)
  else if toLowerStr agg = "min" then jsMinList g.values
  else if toLowerStr agg = "max" then jsMaxList g.values
  else g.values.sum

def barPointOf (agg : String) (g : BarGroup) : BarPoint :=
  ⟨g.name, round2 (barAggregate agg g), g.count, jsMinList g.values, jsMaxList g.values⟩

/-- prepareBarChartData: null/empty guards, group by X, aggregate Y,
round to 2 decimals, sort by value descending. -/
def prepareBarChartData (data : Option (List Row)) (xColumn yColumn agg : String) :
    List BarPoint :=
  match data with
  | none => []
  | some d =>
      if d = [] then []
      else if xColumn = "" then []
      else if yColumn = "" then []
      else jsSortBy (fun a b => b.value - a.value) ((barGroups d xColumn yColumn).map (barPointOf agg))

/-- A line chart point: stringified key, 2-decimal value, and the raw
date field (the first X value seen for the key). -/
structure LinePoint where
  name : String
  value : ℚ
  date : Value
deriving DecidableEq

structure LineGroup where
  name : String
  values : List ℚ
  date : Value
deriving DecidableEq

def lineAdd (key : String) (xv : Value) (yv : ℚ) : List LineGroup → List LineGroup
  | [] => [⟨key, [yv], xv⟩]
  | g :: gs =>
      if g.name = key then ⟨g.name, g.values ++ [yv], g.date⟩ :: gs
      else g :: lineAdd key xv yv gs

def lineStep (x y : String) (acc : List LineGroup) (r : Row) : List LineGroup :=
  match getV r x, jsParseFloat (getV r y) with
  | Value.vNull, _ => acc
  | _, none => acc
  | xv, some yv => lineAdd (jsToString xv) xv yv acc

def lineGroups (d : List Row) (x y : String) : List LineGroup :=
  d.foldl (lineStep x y) []

/-- The aggregation switch of prepareLineChartData: a singleton group
takes its value directly; the default arm is the average. -/
def lineAggregate (agg : String) (vs : List ℚ) : ℚ :=
  match vs with
  | [v] => v
  | _ =>
      if toLowerStr agg = "sum" then vs.sum
      else if toLowerStr agg = "avg" ∨ toLowerStr agg = "average" then
        vs.sum / (vs.length : ℚ)
      else if toLowerStr agg = "min" then jsMinList vs
      else if toLowerStr agg = "max" then jsMaxList vs
      else vs.sum / (vs.length : ℚ)

def linePointOf (agg : String) (g : LineGroup) : LinePoint :=
  ⟨g.name, round2 (lineAggregate agg g.values), g.date⟩

/-- The line chart sort comparator: when both date fields parse as dates
compare the parsed dates, otherwise compare the names (localeCompare,
modelled as code-unit order). -/
def lineCmp (a b : LinePoint) : ℚ :=
  match jsNewDateV a.date, jsNewDateV b.date with
  | some da, some db => ((da - db : ℤ) : ℚ)
  | _, _ => strCmpQ a.name b.name

/-- prepareLineChartData: null/empty guards, group by X, aggregate
duplicates, round to 2 decimals, sort by the date-or-name comparator.
(The source branch converting a Date object key to an ISO string is not
reachable from parsed CSV cells, which are never Date objects.) -/
def prepareLineChartData (data : Option (List Row)) (xColumn yColumn agg : String) :
    List LinePoint :=
  match data with
  | none => []
  | some d =>
      if d = [] then []
      else if xColumn = "" then []
      else if yColumn = "" then []
      else jsSortBy lineCmp ((lineGroups d xColumn yColumn).map (linePointOf agg))

/-- A pie chart point. -/
structure PiePoint where
  name : String
  value : ℚ
deriving DecidableEq

structure PieGroup where
  name : String
  count : ℕ
  sum : ℚ
deriving DecidableEq

/-- Add one row to the pie accumulator: the count always increments; when
a value column is given and its value parses, it is added to the sum. -/
def pieAdd (key : String) (v? : Option ℚ) : List PieGroup → List PieGroup
  | [] => [⟨key, 1, match v? with | some v => v | none => 0⟩]
  | g :: gs =>
      if g.name = key then
        ⟨g.name, g.count + 1, match v? with | some v => g.sum + v | none => g.sum⟩ :: gs
      else g :: pieAdd key v? gs

def pieStep (cat : String) (vc : Option String) (acc : List PieGroup) (r : Row) :
    List PieGroup :=
  match getV r cat with
  | Value.vNull => acc
  | v => pieAdd (jsToString v) (vc.bind (fun c => jsParseFloat (getV r c))) acc

def pieGroups (d : List Row) (cat : String) (vc : Option String) : List PieGroup :=
  d.foldl (pieStep cat vc) []

/-- The sorted pie point list before the top-N collapse: value is the
2-decimal rounded sum when a value column is given, else the raw count. -/
def piePointsAll (d : List Row) (cat : String) (vc : Option String) : List PiePoint :=
  jsSortBy (fun a b => b.value - a.value)
    ((pieGroups d cat vc).map (fun g =>
      ⟨g.name, match vc with | some _ => round2 g.sum | none => (g.count : ℚ)⟩))

/-- preparePieChartData: null/empty guards, group by the category column,
sort descending by value, and when topN is a positive number smaller than
the group count, keep the top N and collapse the tail into an Others
bucket holding the rounded sum of the collapsed values. (A zero topN is
falsy in the source guard and performs no collapse; a negative topN fails
the positivity guard the same way and is folded into the none case.) -/
def preparePieChartData (data : Option (List Row)) (categoryColumn : String)
    (valueColumn : Option String) (topN : Option ℕ) : List PiePoint :=
  match data with
  | none => []
  | some d =>
      if d = [] then []
      else if categoryColumn = "" then []
      else
        let result := piePointsAll d categoryColumn valueColumn
        match topN with
        | some k =>
            if 0 < k ∧ k < result.length then
              result.take k ++ [⟨"Others", round2 (((result.drop k).map PiePoint.value).sum)⟩]
            else result
        | none => result

/-- A scatter point. -/
structure ScatterPoint where
  x : ℚ
  y : ℚ
  name : String
deriving DecidableEq

/-- prepareScatterData: null/empty guards; each row maps to an (x, y)
pair via parseFloat of the two columns, rows where either parse fails are
dropped; the label is the stringified name column or a positional label. -/
def prepareScatterData (data : Option (List Row)) (xColumn yColumn : String)
    (nameColumn : Option String) : List ScatterPoint :=
  match data with
  | none => []
  | some d =>
      if d = [] then []
      else if xColumn = "" then []
      else if yColumn = "" then []
      else
        d.enum.filterMap (fun p =>
          match jsParseFloat (getV p.2 xColumn), jsParseFloat (getV p.2 yColumn) with
          | some xv, some yv =>
              some ⟨xv, yv,
                match nameColumn with
                | some nc => jsToString (getV p.2 nc)
                | none => "Point " ++ toString (p.1 + 1)⟩
          | _, _ => none)

/-! ### CSV validation and column type inference (csvParser module) -/

/-- The emptiness test shared by the validator and the inferencer:
null, undefined, or the empty string. -/
def isEmptyish (v : Value) : Bool := v == Value.vNull || v == Value.vStr ""

/-- JS Set insertion order: first occurrences, in order. -/
def distinctAux : List Value → List Value → List Value
  | _, [] => []
  | seen, v :: vs =>
      if v ∈ seen then distinctAux seen vs
      else v :: distinctAux (v :: seen) vs

def distinctList (l : List Value) : List Value := distinctAux [] l

/-- The validation result of validateCSV. -/
structure ValidationResult where
  valid : Bool
  message : String
  warnings : List String
deriving DecidableEq

/-- Object.keys(row).sort(): the key list in default (code-unit) sort
order, used for the row-shape consistency comparison. -/
def rowKeysSorted (r : Row) : List String :=
  jsSortBy strCmpQ (r.map Prod.fst)

/-- A row whose Object.values are all null/undefined/empty-string. -/
def isAllEmptyRow (r : Row) : Bool := r.all (fun kv => isEmptyish kv.2)

/-- The (index, row) pairs whose sorted key set differs from the header
row key set. -/
def inconsistentEnum (d : List Row) (firstRowKeys : List String) : List (ℕ × Row) :=
  d.enum.filter (fun p => rowKeysSorted p.2 ≠ firstRowKeys)

/-- The (index, row) pairs whose values are all empty. -/
def emptyEnum (d : List Row) : List (ℕ × Row) :=
  d.enum.filter (fun p => isAllEmptyRow p.2)

/-- The empty-row ratio warning text; toFixed(1) is round to one decimal,
ties toward the larger value. -/
def jsToFixed1 (q : ℚ) : String :=
  let n := (⌊q * 10 + 1/2⌋).toNat
  toString (n / 10) ++ "." ++ toString (n % 10)

def emptyRowsRatioWarning (n len : ℕ) : String :=
  toString n ++ " rows (" ++ jsToFixed1 ((n * 100 : ℚ) / (len : ℚ)) ++
    "%) contain all empty values"

def inconsistentRowWarning (idx : ℕ) : String :=
  "Row " ++ toString (idx + 1) ++ " has different columns than the header row"

def emptyRowWarning (idx : ℕ) : String :=
  "Row " ++ toString (idx + 1) ++ " contains all empty values"

/-- validateCSV: reject a non-array (none), an empty dataset, a dataset
with no columns, or blank header names; reject when more than 10 percent
of rows have a key set different from the first row; otherwise collect
warnings (first three inconsistent rows, first three all-empty rows, the
empty-row ratio above 20 percent, tiny and huge datasets) on a valid
result. The 0.1 and 0.2 literals are exact here; the binary-float
representation in the host can shift the threshold by one row in corner
cases, which no claim hinges on. -/
def validateCSV (data : Option (List Row)) : ValidationResult :=
  match data with
  | none => ⟨false, "Invalid data format. Expected an array of objects.", []⟩
  | some d =>
      match d with
      | [] => ⟨false, "CSV file is empty. Please upload a file with data.", []⟩
      | r0 :: _ =>
          let columns := r0.map Prod.fst
          if columns = [] then ⟨false, "No columns found in CSV file.", []⟩
          else if (columns.filter (fun c => trimStr c = "")) ≠ [] then
            ⟨false, "CSV contains empty column headers. Please ensure all columns have names.", []⟩
          else
            let firstRowKeys := jsSortBy strCmpQ columns
            let inconsistent := inconsistentEnum d firstRowKeys
            let inconsistentRows := inconsistent.length
            let incWarnings := (inconsistent.take 3).map (fun p => inconsistentRowWarning p.1)
            if (d.length : ℚ) * (1/10) < (inconsistentRows : ℚ) then
              ⟨false,
                "Too many inconsistent rows (" ++ toString inconsistentRows ++ "/" ++
                  toString d.length ++ "). Please check your CSV structure.",
                incWarnings⟩
            else
              let empties := emptyEnum d
              let emptyRows := empties.length
              let empWarnings := (empties.take 3).map (fun p => emptyRowWarning p.1)
              let ratioW :=
                if (d.length : ℚ) * (1/5) < (emptyRows : ℚ) then
                  [emptyRowsRatioWarning emptyRows d.length]
                else []
              let smallW :=
                if d.length < 5 then
                  ["Dataset is very small (less than 5 rows). Analysis may be limited."]
                else []
              let largeW :=
                if 10000 < d.length then
                  ["Large dataset detected (" ++ toString d.length ++ " rows). Processing may take longer."]
                else []
              ⟨true, "", incWarnings ++ empWarnings ++ ratioW ++ smallW ++ largeW⟩

/-- A column descriptor from inferColumnTypes. Branch-specific fields are
options; the ISO re-rendering of date sample values and date ranges is
kept as encoded timestamps (presentation only). -/
structure ColumnInfo where
  name : String
  type : String
  nullable : Bool
  uniqueCount : ℕ
  nullCount : ℕ
  sampleValues : List Value
  minVal : Option ℚ
  maxVal : Option ℚ
  minDate : Option ℤ
  maxDate : Option ℤ
  categories : Option (List Value)
deriving DecidableEq

/-- The boolean predicate of the type cascade: a strict JS boolean. -/
def isBoolValue : Value → Bool
  | Value.vBool _ => true
  | _ => false

/-- The number predicate of the type cascade: a number, or a string whose
Number() conversion is not NaN and whose trim is nonempty. -/
def isNumericValue : Value → Bool
  | Value.vNum _ => true
  | Value.vStr s => (jsNumberStr s).isSome && trimStr s ≠ ""
  | _ => false

/-- The date predicate of the type cascade: a string that parses as a
date and contains a digit. (Parsed CSV cells are never Date objects, so
the instanceof branch is vacuous; numbers and booleans fail the typeof
string test.) -/
def isDateValue : Value → Bool
  | Value.vStr s => (parseDateStr s).isSome && s.data.any Char.isDigit
  | _ => false

/-- Number(v) as used for the numeric min/max statistics. -/
def jsNumberOf : Value → ℚ
  | Value.vNum q => q
  | Value.vStr s => (jsNumberStr s).getD 0
  | Value.vBool b => if b then 1 else 0
  | Value.vNull => 0

/-- new Date(v) as used for the date min/max statistics (reached only for
values passing the date predicate, hence strings). -/
def jsDateOf : Value → ℤ
  | Value.vStr s => (parseDateStr s).getD 0
  | _ => 0

/-- The per-column body of inferColumnTypes: the all-null early return,
then the boolean / number / date / category-or-string cascade over the
sampled non-null values. -/
def inferColumn (sample : List Row) (columnName : String) : ColumnInfo :=
  let values := sample.map (fun r => getV r columnName)
  let nonNullValues := values.filter (fun v => !(isEmptyish v))
  if nonNullValues = [] then
    ⟨columnName, "string", true, 0, values.length, [], none, none, none, none, none⟩
  else
    let nullCount := values.length - nonNullValues.length
    let uniqueValues := distinctList nonNullValues
    let uniqueCount := uniqueValues.length
    let sampleValues := uniqueValues.take 5
    if nonNullValues.all isBoolValue then
      ⟨columnName, "boolean", decide (0 < nullCount), uniqueCount, nullCount,
        sampleValues, none, none, none, none, none⟩
    else if nonNullValues.all isNumericValue then
      ⟨columnName, "number", decide (0 < nullCount), uniqueCount, nullCount,
        sampleValues,
        some (jsMinList (nonNullValues.map jsNumberOf)),
        some (jsMaxList (nonNullValues.map jsNumberOf)), none, none, none⟩
    else if nonNullValues.all isDateValue then
      ⟨columnName, "date", decide (0 < nullCount), uniqueCount, nullCount,
        sampleValues, none, none,
        some (jsMinListI (nonNullValues.map jsDateOf)),
        some (jsMaxListI (nonNullValues.map jsDateOf)), none⟩
    else if (uniqueCount : ℚ) < qMax 10 ((nonNullValues.length : ℚ) * (1/10)) then
      ⟨columnName, "category", decide (0 < nullCount), uniqueCount, nullCount,
        sampleValues, none, none, none, none, some uniqueValues⟩
    else
      ⟨columnName, "string", decide (0 < nullCount), uniqueCount, nullCount,
        sampleValues, none, none, none, none, none⟩

/-- inferColumnTypes: empty guard, sample the first min(100, rowCount)
rows, and classify each column named by the first row. -/
def inferColumnTypes (data : Option (List Row)) : List ColumnInfo :=
  match data with
  | none => []
  | some d =>
      match d with
      | [] => []
      | r0 :: _ =>
          let sample := d.take (min 100 d.length)
          (r0.map Prod.fst).map (inferColumn sample)

/-! Spec-side classifier for the refinement claim: the fixed first-match
order written in the specification. -/

/-- Modelled from the spec: the classification cascade, first match wins,
over the sampled non-null values of a column: boolean (all strictly
true/false) then number (all convertible via numeric parse) then date
(all parseable as calendar dates) then category (unique-value count below
max(10, 10 percent of the sample)) then string. -/
def specFirstMatch (nonNull : List Value) (uniqueCount sampleLen : ℕ) : String :=
  if nonNull.all isBoolValue then "boolean"
  else if nonNull.all isNumericValue then "number"
  else if nonNull.all isDateValue then "date"
  else if (uniqueCount : ℚ) < qMax 10 ((sampleLen : ℚ) * (1/10)) then "category"
  else "string"

/-- The sampled rows of a dataset, as inferColumnTypes samples them. -/
def sampleOf (d : List Row) : List Row := d.take (min 100 d.length)

/-- The sampled non-null values of one column. -/
def nonNullOf (d : List Row) (col : String) : List Value :=
  ((sampleOf d).map (fun r => getV r col)).filter (fun v => !(isEmptyish v))

/-- Modelled from the spec: the type the specification cascade assigns to
a column of a dataset. -/
def specClassifyColumn (d : List Row) (col : String) : String :=
  specFirstMatch (nonNullOf d col) (distinctList (nonNullOf d col)).length (sampleOf d).length

/-! ### AI client: rate limiter, retry policy, call models
(openai.config / openaiService module) -/

def MIN_TIME_BETWEEN_CALLS : ℤ := 2000

def OPENAI_maxRetries : ℕ := 3

def OPENAI_retryDelay : ℕ := 1000

/-- Math.ceil(remaining / 1000) for the positive remainders the gate
computes it on. -/
def waitSecondsOf (remaining : ℤ) : ℤ := (remaining + 999) / 1000

def waitMessage (remaining : ℤ) : String :=
  "Please wait " ++ toString (waitSecondsOf remaining) ++
    " seconds before making another request to avoid rate limits."

/-- canMakeApiCall with the module-level lastApiCallTime threaded
explicitly: the pair is (thrown error or ok, the timestamp after the
call). A premature call throws and leaves the timestamp untouched; a
permitted call records now. -/
def canMakeApiCall (now last : ℤ) : Except String Unit × ℤ :=
  let timeSinceLastCall := now - last
  if timeSinceLastCall < MIN_TIME_BETWEEN_CALLS then
    (Except.error (waitMessage (MIN_TIME_BETWEEN_CALLS - timeSinceLastCall)), last)
  else (Except.ok (), now)

/-- An error thrown by the OpenAI SDK call: an optional HTTP status (none
for network failures) and a message. -/
structure ApiError where
  status : Option ℕ
  message : String
deriving DecidableEq

/-- What one run of retryWithBackoff did: its returned value or thrown
error (none models the undefined fall-through of a zero retry budget),
how many times it invoked the wrapped function, and the backoff delays it
slept. -/
structure RetryOutcome (α : Type) where
  result : Option (Except ApiError α)
  attempts : ℕ
  delays : List ℕ

def statusIsClientError : Option ℕ → Bool
  | some s => 400 ≤ s && s < 500
  | none => false

/-- The retry loop of retryWithBackoff, with the wrapped call modelled as
a function from attempt index to outcome and the remaining iteration
count (retries - i) made structural. Authentication errors (401/403),
rate-limit errors (429) and other 4xx errors are rethrown at once; the
last iteration rethrows; otherwise the loop sleeps retryDelay * 2^i and
continues. -/
def retryLoop {α : Type} (fn : ℕ → Except ApiError α) (retries : ℕ) :
    ℕ → ℕ → RetryOutcome α
  | _, 0 => ⟨none, 0, []⟩
  | i, gas + 1 =>
      match fn i with
      | Except.ok a => ⟨some (Except.ok a), 1, []⟩
      | Except.error e =>
          if e.status = some 401 ∨ e.status = some 403 then ⟨some (Except.error e), 1, []⟩
          else if e.status = some 429 then ⟨some (Except.error e), 1, []⟩
          else if statusIsClientError e.status then ⟨some (Except.error e), 1, []⟩
          else if i = retries - 1 then ⟨some (Except.error e), 1, []⟩
          else
            let rest := retryLoop fn retries (i + 1) gas
            ⟨rest.result, rest.attempts + 1, OPENAI_retryDelay * 2 ^ i :: rest.delays⟩

/-- retryWithBackoff at its default retry budget OPENAI_CONFIG.maxRetries. -/
def retryWithBackoff {α : Type} (fn : ℕ → Except ApiError α) : RetryOutcome α :=
  retryLoop fn OPENAI_maxRetries 0 OPENAI_maxRetries

/-- What one modelled AI service call produced: the resolved value or the
thrown error message, the number of network requests issued, and the
rate-limiter timestamp afterwards. -/
structure AiCallResult (α : Type) where
  result : Except String α
  networkAttempts : ℕ
  newLast : ℤ

def dataIsEmpty : Option (List Row) → Bool
  | none => true
  | some d => d.isEmpty

def colsIsEmpty : Option (List ColumnInfo) → Bool
  | none => true
  | some cs => cs.isEmpty

def openaiKeyErrorMsg : String :=
  "OpenAI API key is not configured. Please add your API key in Settings."

/-- The catch-block status mapping of analyzeData. -/
def mapAnalyzeError (e : ApiError) : String :=
  if e.status = some 401 then "Invalid OpenAI API key. Please check your configuration."
  else if e.status = some 429 then "Rate limit exceeded. Please try again in a few moments."
  else if e.status = some 500 ∨ e.status = some 503 then
    "OpenAI service is temporarily unavailable. Please try again later."
  else if e.message = "" then "Failed to analyze data with AI"
  else e.message

/-- analyzeData: the rate-limit gate runs first (before any data check,
network call, or client construction); then the data and column checks;
then the client key check; then the request through retryWithBackoff,
with the catch block mapping error statuses to user messages. The JSON
shaping of a successful response is abstracted into the payload type. -/
def analyzeDataModel {α : Type} (now last : ℤ) (csvData : Option (List Row))
    (columns : Option (List ColumnInfo)) (apiKeyOk : Bool)
    (net : ℕ → Except ApiError α) : AiCallResult α :=
  match canMakeApiCall now last with
  | (Except.error e, st) => ⟨Except.error e, 0, st⟩
  | (Except.ok _, st) =>
      if dataIsEmpty csvData then ⟨Except.error "No data to analyze", 0, st⟩
      else if colsIsEmpty columns then ⟨Except.error "No columns information provided", 0, st⟩
      else if !apiKeyOk then ⟨Except.error openaiKeyErrorMsg, 0, st⟩
      else
        let r := retryWithBackoff net
        match r.result with
        | some (Except.ok a) => ⟨Except.ok a, r.attempts, st⟩
        | some (Except.error e) => ⟨Except.error (mapAnalyzeError e), r.attempts, st⟩
        | none => ⟨Except.error "Failed to analyze data with AI", r.attempts, st⟩

def suggestFallbackMsg : String := "Failed to generate chart suggestions"

/-- suggestChartWithAI: no rate-limit gate is consulted and the shared
timestamp is never touched; after the data/column and key checks the
request goes straight through retryWithBackoff. -/
def suggestChartWithAIModel {α : Type} (_now last : ℤ) (csvData : Option (List Row))
    (columns : Option (List ColumnInfo)) (apiKeyOk : Bool)
    (net : ℕ → Except ApiError α) : AiCallResult α :=
  if dataIsEmpty csvData || colsIsEmpty columns then
    ⟨Except.error "No data or columns provided", 0, last⟩
  else if !apiKeyOk then ⟨Except.error openaiKeyErrorMsg, 0, last⟩
  else
    let r := retryWithBackoff net
    match r.result with
    | some (Except.ok a) => ⟨Except.ok a, r.attempts, last⟩
    | some (Except.error e) =>
        ⟨Except.error (if e.message = "" then suggestFallbackMsg else e.message), r.attempts, last⟩
    | none => ⟨Except.error suggestFallbackMsg, r.attempts, last⟩

/-- Ascending-by-parsed-date check between two line points (keys that do
not parse compare through getD as 0; the claims apply it only under an
all-parse hypothesis). -/
def dateLeB (a b : LinePoint) : Bool :=
  decide (((jsNewDateV a.date).getD 0) ≤ ((jsNewDateV b.date).getD 0))

/-- Lexicographic (code-unit) name order check between two line points. -/
def lexLeB (a b : LinePoint) : Bool :=
  decide (charListCmp a.name.data b.name.data ≤ 0)

/-! ### Concrete inputs used by the claim witnesses and counterexamples -/

/-- A number-typed column descriptor for the column a of the tiny witness
dataset. -/
def colInfoWit : ColumnInfo :=
  ⟨"a", "number", false, 1, 0, [Value.vNum 1], some 1, some 1, none, none, none⟩

/-- A network stub whose every attempt succeeds. -/
def netOkWit : ℕ → Except ApiError Unit := fun _ => Except.ok ()

/-- A network stub whose every attempt fails with HTTP 500. -/
def netErrWit : ℕ → Except ApiError Unit := fun _ => Except.error ⟨some 500, "server error"⟩

/-- Two rows sharing the x key u plus one row with a null x: the bar
chart witness dataset. -/
def barWitData : List Row :=
  [[("a", Value.vStr "u"), ("b", Value.vNum 1)],
   [("a", Value.vNull), ("b", Value.vNum 2)],
   [("a", Value.vStr "u"), ("b", Value.vBool true)]]

/-- Three single-column rows with distinct categories: the pie witness
dataset. -/
def pieWitData : List Row :=
  [[("c", Value.vStr "x")], [("c", Value.vStr "y")], [("c", Value.vStr "x")],
   [("c", Value.vStr "z")]]

/-- Line chart rows whose keys mix two parseable dates (whose date order
differs from their code-unit order) with one unparseable key. -/
def lineCexData : List Row :=
  [[("d", Value.vStr "2020-1-5"), ("v", Value.vNum 1)],
   [("d", Value.vStr "2020-01-06"), ("v", Value.vNum 2)],
   [("d", Value.vStr "banana"), ("v", Value.vNum 3)]]

/-- A single-row line chart witness dataset with a date key. -/
def lineWitData : List Row :=
  [[("d", Value.vStr "2020-1-5"), ("v", Value.vNum 1)]]

/-- A four-row dataset with one all-empty row and consistent keys: the
validateCSV witness dataset. -/
def csvWitData : List Row :=
  [[("a", Value.vNum 1)], [("a", Value.vNull)], [("a", Value.vNum 2)],
   [("a", Value.vNum 3)]]

/-- Two rows with different key sets: the validateCSV counterexample
dataset (50 percent structurally inconsistent). -/
def csvCexData : List Row :=
  [[("a", Value.vNum 1), ("b", Value.vNum 2)], [("a", Value.vNum 3)]]

/-- One row whose only column is null everywhere. -/
def nullColData : List Row := [[("a", Value.vNull)]]

/-- 101 rows whose only column is null everywhere: more rows than the
type-inference sample cap. -/
def nullColData101 : List Row := List.replicate 101 [("a", Value.vNull)]

/-- A dataset with a boolean column, used to witness the amended
classification-order claim. -/
def boolColData : List Row := [[("flag", Value.vBool true)], [("flag", Value.vBool false)]]

/-! ### Lemmas about the comparator sort -/

theorem mem_jsInsert {α : Type} {c : α → α → ℚ} {x a : α} {l : List α} :
    a ∈ jsInsert c x l ↔ a = x ∨ a ∈ l := by
  induction l with
  | nil => simp [jsInsert]
  | cons y ys ih =>
    by_cases h : c x y < 0
    · simp [jsInsert, h]
    · simp [jsInsert, h, ih]
      tauto

theorem jsInsert_perm {α : Type} (c : α → α → ℚ) (x : α) (l : List α) :
    (jsInsert c x l).Perm (x :: l) := by
  induction l with
  | nil => simp [jsInsert]
  | cons y ys ih =>
    by_cases h : c x y < 0
    · simp [jsInsert, h]
    · simp only [jsInsert, h, if_false]
      exact (ih.cons y).trans (List.Perm.swap x y ys)

theorem jsSortBy_perm {α : Type} (c : α → α → ℚ) (l : List α) :
    (jsSortBy c l).Perm l := by
  induction l with
  | nil => simp [jsSortBy]
  | cons x xs ih =>
    exact (jsInsert_perm c x (jsSortBy c xs)).trans (ih.cons x)

theorem mem_jsSortBy {α : Type} {c : α → α → ℚ} {a : α} {l : List α} :
    a ∈ jsSortBy c l ↔ a ∈ l :=
  (jsSortBy_perm c l).mem_iff

theorem pairwise_jsInsert {α : Type} {c : α → α → ℚ}
    (hflip : ∀ a b, c a b = -(c b a)) (x : α) (s : List α)
    (hs : List.Pairwise (fun a b => c a b ≤ 0) s)
    (htr : ∀ a b d, a ∈ x :: s → b ∈ x :: s → d ∈ x :: s →
      c a b ≤ 0 → c b d ≤ 0 → c a d ≤ 0) :
    List.Pairwise (fun a b => c a b ≤ 0) (jsInsert c x s) := by
  induction s with
  | nil => simp [jsInsert]
  | cons y ys ih =>
    rcases List.pairwise_cons.mp hs with ⟨hy, hys⟩
    by_cases h : c x y < 0
    · simp only [jsInsert, h, if_true]
      refine List.pairwise_cons.mpr ⟨?_, hs⟩
      intro z hz
      rcases List.mem_cons.mp hz with hz | hz
      · exact hz ▸ le_of_lt h
      · exact htr x y z (by simp) (by simp) (by simp [hz]) (le_of_lt h) (hy z hz)
    · simp only [jsInsert, h, if_false]
      refine List.pairwise_cons.mpr ⟨?_, ?_⟩
      · intro z hz
        rcases mem_jsInsert.mp hz with hz | hz
        · rw [hz]
          have hxy : 0 ≤ c x y := not_lt.mp h
          have hf := hflip y x
          have hf2 := hflip x y
          linarith
        · exact hy z hz
      · refine ih hys ?_
        intro a b d ha hb hd hab hbd
        have lift : ∀ e : α, e ∈ x :: ys → e ∈ x :: y :: ys := by
          intro e he
          rcases List.mem_cons.mp he with he | he
          · exact he ▸ List.mem_cons_self x (y :: ys)
          · exact List.mem_cons_of_mem x (List.mem_cons_of_mem y he)
        exact htr a b d (lift a ha) (lift b hb) (lift d hd) hab hbd

theorem pairwise_jsSortBy {α : Type} {c : α → α → ℚ}
    (hflip : ∀ a b, c a b = -(c b a)) (l : List α)
    (htr : ∀ a b d, a ∈ l → b ∈ l → d ∈ l →
      c a b ≤ 0 → c b d ≤ 0 → c a d ≤ 0) :
    List.Pairwise (fun a b => c a b ≤ 0) (jsSortBy c l) := by
  induction l with
  | nil => simp [jsSortBy]
  | cons x xs ih =>
    have hsub : ∀ a, a ∈ jsSortBy c xs → a ∈ x :: xs := by
      intro a ha
      exact List.mem_cons_of_mem x (mem_jsSortBy.mp ha)
    refine pairwise_jsInsert hflip x (jsSortBy c xs) ?_ ?_
    · refine ih ?_
      intro a b d ha hb hd hab hbd
      exact htr a b d (List.mem_cons_of_mem x ha) (List.mem_cons_of_mem x hb)
        (List.mem_cons_of_mem x hd) hab hbd
    · intro a b d ha hb hd hab hbd
      have hmem : ∀ e : α, e ∈ x :: jsSortBy c xs → e ∈ x :: xs := by
        intro e he
        rcases List.mem_cons.mp he with he | he
        · exact he ▸ List.mem_cons_self x xs
        · exact hsub e he
      exact htr a b d (hmem a ha) (hmem b hb) (hmem d hd) hab hbd

theorem chainAll_iff_pairwise {α : Type} {f : α → α → Bool} {l : List α} :
    chainAll f l = true ↔ List.Pairwise (fun a b => f a b = true) l := by
  induction l with
  | nil => simp [chainAll]
  | cons x xs ih =>
    simp [chainAll, List.all_eq_true, List.pairwise_cons, ih]


/-! ### Claim C10: transformer totality on degenerate input -/

/-- C10: each of the four chart transformers returns the empty list on a
null dataset, an empty dataset, or a missing (empty) required column
argument, rather than failing. -/
theorem transformers_total_on_degenerate :
    ∀ (x y agg cat : String) (vc : Option String) (tn : Option ℕ)
      (nc : Option String) (d : List Row),
      prepareBarChartData none x y agg = [] ∧
      prepareBarChartData (some []) x y agg = [] ∧
      prepareBarChartData (some d) "" y agg = [] ∧
      prepareBarChartData (some d) x "" agg = [] ∧
      prepareLineChartData none x y agg = [] ∧
      prepareLineChartData (some []) x y agg = [] ∧
      prepareLineChartData (some d) "" y agg = [] ∧
      prepareLineChartData (some d) x "" agg = [] ∧
      preparePieChartData none cat vc tn = [] ∧
      preparePieChartData (some []) cat vc tn = [] ∧
      preparePieChartData (some d) "" vc tn = [] ∧
      prepareScatterData none x y nc = [] ∧
      prepareScatterData (some []) x y nc = [] ∧
      prepareScatterData (some d) "" y nc = [] ∧
      prepareScatterData (some d) x "" nc = [] := by
  intro x y agg cat vc tn nc d
  refine ⟨rfl, by simp [prepareBarChartData], ?_, ?_, rfl, by simp [prepareLineChartData],
    ?_, ?_, rfl, by simp [preparePieChartData], ?_, rfl, by simp [prepareScatterData],
    ?_, ?_⟩ <;>
  · by_cases hd : d = [] <;>
      simp [prepareBarChartData, prepareLineChartData, preparePieChartData,
        prepareScatterData, hd]

/-! ### Claim C9: the rate-limit gate updates state only when it permits -/

/-- C9: canMakeApiCall leaves the shared timestamp unchanged when it
throws the wait error (so repeated premature attempts do not extend the
cooldown) and records the time only of a permitted call; the gate permits
exactly the calls issued at least MIN_TIME_BETWEEN_CALLS after the last
permitted one. -/
theorem canMakeApiCall_state_update (last : ℤ) :
    (∀ now : ℤ, now - last < MIN_TIME_BETWEEN_CALLS →
        canMakeApiCall now last =
          (Except.error (waitMessage (MIN_TIME_BETWEEN_CALLS - (now - last))), last))
    ∧ (∀ now : ℤ, MIN_TIME_BETWEEN_CALLS ≤ now - last →
        canMakeApiCall now last = (Except.ok (), now))
    ∧ (∀ ts : List ℤ, (∀ t ∈ ts, t - last < MIN_TIME_BETWEEN_CALLS) →
        ts.foldl (fun st t => (canMakeApiCall t st).2) last = last) := by
  refine ⟨?_, ?_, ?_⟩
  · intro now h
    simp [canMakeApiCall, h]
  · intro now h
    simp [canMakeApiCall, not_lt.mpr h]
  · intro ts h
    induction ts with
    | nil => rfl
    | cons t ts ih =>
      have ht : t - last < MIN_TIME_BETWEEN_CALLS := h t (List.mem_cons_self t ts)
      have hstep : (canMakeApiCall t last).2 = last := by
        simp [canMakeApiCall, ht]
      simp only [List.foldl_cons, hstep]
      exact ih (fun u hu => h u (List.mem_cons_of_mem t hu))

/-- C9 witness: with the last permitted call at time 0, the attempts at
1999 fail without moving the timestamp, premature attempts at 500, 1000,
1500 leave it at 0, and the call at 2000 is permitted. -/
theorem canMakeApiCall_state_update_witness :
    canMakeApiCall 1999 0 =
      (Except.error (waitMessage (MIN_TIME_BETWEEN_CALLS - ((1999 : ℤ) - 0))), 0)
    ∧ canMakeApiCall 2000 0 = (Except.ok (), 2000)
    ∧ [(500 : ℤ), 1000, 1500].foldl (fun st t => (canMakeApiCall t st).2) 0 = 0 :=
  ⟨(canMakeApiCall_state_update 0).1 1999 (by decide),
   (canMakeApiCall_state_update 0).2.1 2000 (by decide),
   (canMakeApiCall_state_update 0).2.2 [500, 1000, 1500] (by decide)⟩

/-! ### Claim C7: the retry policy -/

theorem retryLoop_step_ok {α : Type} {fn : ℕ → Except ApiError α} {retries i gas : ℕ}
    {a : α} (hf : fn i = Except.ok a) :
    retryLoop fn retries i (gas + 1) = ⟨some (Except.ok a), 1, []⟩ := by
  simp [retryLoop, hf]

theorem retryLoop_step_noRetry {α : Type} {fn : ℕ → Except ApiError α}
    {retries i gas : ℕ} {e : ApiError} (hf : fn i = Except.error e)
    (hc : statusIsClientError e.status = true) :
    retryLoop fn retries i (gas + 1) = ⟨some (Except.error e), 1, []⟩ := by
  simp only [retryLoop, hf]
  by_cases h1 : e.status = some 401 ∨ e.status = some 403
  · rw [if_pos h1]
  · rw [if_neg h1]
    by_cases h2 : e.status = some 429
    · rw [if_pos h2]
    · rw [if_neg h2, if_pos hc]

theorem retryLoop_step_last {α : Type} {fn : ℕ → Except ApiError α}
    {retries i gas : ℕ} {e : ApiError} (hf : fn i = Except.error e)
    (hlast : i = retries - 1) :
    retryLoop fn retries i (gas + 1) = ⟨some (Except.error e), 1, []⟩ := by
  simp only [retryLoop, hf]
  by_cases h1 : e.status = some 401 ∨ e.status = some 403
  · rw [if_pos h1]
  · rw [if_neg h1]
    by_cases h2 : e.status = some 429
    · rw [if_pos h2]
    · rw [if_neg h2]
      by_cases h3 : statusIsClientError e.status = true
      · rw [if_pos h3]
      · rw [if_neg h3, if_pos hlast]

theorem retryLoop_step_retry {α : Type} {fn : ℕ → Except ApiError α}
    {retries i gas : ℕ} {e : ApiError} (hf : fn i = Except.error e)
    (h401 : e.status ≠ some 401) (h403 : e.status ≠ some 403)
    (h429 : e.status ≠ some 429) (hc : statusIsClientError e.status = false)
    (hnot : i ≠ retries - 1) :
    retryLoop fn retries i (gas + 1) =
      ⟨(retryLoop fn retries (i + 1) gas).result,
       (retryLoop fn retries (i + 1) gas).attempts + 1,
       OPENAI_retryDelay * 2 ^ i :: (retryLoop fn retries (i + 1) gas).delays⟩ := by
  simp only [retryLoop, hf]
  rw [if_neg (not_or.mpr ⟨h401, h403⟩), if_neg h429, if_neg (by simp [hc]), if_neg hnot]

/-- Statuses the specification calls retryable (network failure or server
error) fire none of the non-retry branches. -/
theorem statusIsClientError_of_server (st : Option ℕ)
    (h : st = none ∨ ∃ s, st = some s ∧ 500 ≤ s) :
    statusIsClientError st = false ∧ st ≠ some 401 ∧ st ≠ some 403 ∧ st ≠ some 429 := by
  rcases h with h | ⟨s, hs, h5⟩
  · subst h
    exact ⟨rfl, by simp, by simp, by simp⟩
  · subst hs
    have hlt : ¬ (s < 500) := by omega
    refine ⟨by simp [statusIsClientError, hlt], ?_, ?_, ?_⟩ <;>
    · simp only [ne_eq, Option.some.injEq]
      omega

theorem retryLoop_attempts_pos {α : Type} (fn : ℕ → Except ApiError α)
    (retries i gas : ℕ) : 1 ≤ (retryLoop fn retries i (gas + 1)).attempts := by
  cases hf : fn i with
  | ok a => simp [retryLoop_step_ok hf]
  | error e =>
    simp only [retryLoop, hf]
    split_ifs <;> simp

/-- C7: retryWithBackoff surfaces client errors (401/403, 429, and any
other 4xx status) immediately on the first attempt with no backoff sleep;
whenever it retries at all, the first error was a network failure or a
server error; and when every attempt fails with a network or server
error it makes exactly maxRetries attempts, sleeping retryDelay * 2^i
after failed attempt i, and throws the last attempt error. -/
theorem retryWithBackoff_policy {α : Type} (fn : ℕ → Except ApiError α) :
    (∀ (e : ApiError) (s : ℕ), fn 0 = Except.error e → e.status = some s →
        400 ≤ s → s < 500 →
        retryWithBackoff fn = ⟨some (Except.error e), 1, []⟩)
    ∧ (∀ e : ApiError, fn 0 = Except.error e →
        (e.status = none ∨ ∃ s, e.status = some s ∧ 400 ≤ s) →
        1 < (retryWithBackoff fn).attempts →
        (e.status = none ∨ ∃ s, e.status = some s ∧ 500 ≤ s))
    ∧ (∀ es : ℕ → ApiError, (∀ j, fn j = Except.error (es j)) →
        (∀ j, (es j).status = none ∨ ∃ s, (es j).status = some s ∧ 500 ≤ s) →
        retryWithBackoff fn =
          ⟨some (Except.error (es (OPENAI_maxRetries - 1))), OPENAI_maxRetries,
            [OPENAI_retryDelay * 2 ^ 0, OPENAI_retryDelay * 2 ^ 1]⟩) := by
  have himm : ∀ (e : ApiError) (s : ℕ), fn 0 = Except.error e → e.status = some s →
      400 ≤ s → s < 500 → retryWithBackoff fn = ⟨some (Except.error e), 1, []⟩ := by
    intro e s hf hs h4 h5
    have hc : statusIsClientError e.status = true := by
      rw [hs]
      simp [statusIsClientError, h4, h5]
    show retryLoop fn 3 0 (2 + 1) = _
    exact retryLoop_step_noRetry hf hc
  refine ⟨himm, ?_, ?_⟩
  · intro e hf hdom hatt
    rcases hdom with hnone | ⟨s, hs, h4⟩
    · exact Or.inl hnone
    · by_cases h5 : 500 ≤ s
      · exact Or.inr ⟨s, hs, h5⟩
      · have := himm e s hf hs h4 (by omega)
        rw [this] at hatt
        exact absurd hatt (by simp)
  · intro es hall hsrv
    have f0 := statusIsClientError_of_server (es 0).status (hsrv 0)
    have f1 := statusIsClientError_of_server (es 1).status (hsrv 1)
    have s2 : retryLoop fn 3 2 (0 + 1) = ⟨some (Except.error (es 2)), 1, []⟩ :=
      retryLoop_step_last (hall 2) (by omega)
    have s1 : retryLoop fn 3 1 (1 + 1) =
        ⟨(retryLoop fn 3 2 1).result, (retryLoop fn 3 2 1).attempts + 1,
          OPENAI_retryDelay * 2 ^ 1 :: (retryLoop fn 3 2 1).delays⟩ :=
      retryLoop_step_retry (hall 1) f1.2.1 f1.2.2.1 f1.2.2.2 f1.1 (by omega)
    have s0 : retryLoop fn 3 0 (2 + 1) =
        ⟨(retryLoop fn 3 1 2).result, (retryLoop fn 3 1 2).attempts + 1,
          OPENAI_retryDelay * 2 ^ 0 :: (retryLoop fn 3 1 2).delays⟩ :=
      retryLoop_step_retry (hall 0) f0.2.1 f0.2.2.1 f0.2.2.2 f0.1 (by omega)
    have e21 : retryLoop fn 3 2 1 = ⟨some (Except.error (es 2)), 1, []⟩ := s2
    have e12 : retryLoop fn 3 1 2 =
        ⟨some (Except.error (es 2)), 2, [OPENAI_retryDelay * 2 ^ 1]⟩ := by
      rw [show (2 : ℕ) = 1 + 1 from rfl] at s1
      rw [s1, e21]
    show retryLoop fn 3 0 3 = _
    rw [show (3 : ℕ) = 2 + 1 from rfl, s0, e12]
    rfl

/-- C7 witness: a call that fails every attempt with HTTP 500 makes three
attempts, sleeps 1000 and 2000 milliseconds, and throws the last error. -/
theorem retryWithBackoff_policy_witness :
    retryWithBackoff netErrWit =
      ⟨some (Except.error ⟨some 500, "server error"⟩), OPENAI_maxRetries,
        [OPENAI_retryDelay * 2 ^ 0, OPENAI_retryDelay * 2 ^ 1]⟩ :=
  (retryWithBackoff_policy netErrWit).2.2 (fun _ => ⟨some 500, "server error"⟩)
    (fun _ => rfl) (fun _ => Or.inr ⟨500, rfl, by omega⟩)

/-! ### Claim C6: the minimum-interval gate -/

/-- C6 counterexample: an AI call through suggestChartWithAI issued 1000
milliseconds after the last permitted call (well under the 2 second
minimum interval) does not fail with the wait error: it reaches the
network layer (one request is issued) and resolves successfully. -/
theorem suggestChart_not_gated :
    ((1000 : ℤ) - 0 < MIN_TIME_BETWEEN_CALLS)
    ∧ (suggestChartWithAIModel 1000 0 (some [[("a", Value.vNum 1)]]) (some [colInfoWit])
        true netOkWit).networkAttempts = 1
    ∧ (suggestChartWithAIModel 1000 0 (some [[("a", Value.vNum 1)]]) (some [colInfoWit])
        true netOkWit).result = Except.ok () := by
  refine ⟨by decide, ?_, ?_⟩ <;> rfl

/-- C6 amended: the minimum-interval gate guards analyzeData, which on a
call issued less than 2 seconds after the last permitted call fails fast
with the wait-N-seconds error, issues no network request, and leaves the
gate state unchanged; suggestChartWithAI (like answerQuestion) performs
no gate check and proceeds to the network regardless of the interval. -/
theorem analyzeData_gate_amended {α : Type} (now last : ℤ) (csv : Option (List Row))
    (cols : Option (List ColumnInfo)) (key : Bool) (net : ℕ → Except ApiError α)
    (h : now - last < MIN_TIME_BETWEEN_CALLS) :
    analyzeDataModel now last csv cols key net =
      ⟨Except.error (waitMessage (MIN_TIME_BETWEEN_CALLS - (now - last))), 0, last⟩
    ∧ (dataIsEmpty csv = false → colsIsEmpty cols = false → key = true →
        1 ≤ (suggestChartWithAIModel now last csv cols key net).networkAttempts) := by
  constructor
  · have hg : canMakeApiCall now last =
        (Except.error (waitMessage (MIN_TIME_BETWEEN_CALLS - (now - last))), last) := by
      simp [canMakeApiCall, h]
    simp [analyzeDataModel, hg]
  · intro h1 h2 h3
    subst h3
    have hat : 1 ≤ (retryWithBackoff net).attempts := by
      show 1 ≤ (retryLoop net 3 0 (2 + 1)).attempts
      exact retryLoop_attempts_pos net 3 0 2
    simp only [suggestChartWithAIModel, h1, h2, Bool.or_self, Bool.false_eq_true,
      if_false, Bool.not_true, Bool.false_or]
    rcases hr : (retryWithBackoff net).result with _ | r
    · simp [hr]
      exact hat
    · rcases r with a | e
      · simp [hr]
        exact hat
      · simp [hr]
        exact hat

/-- C6 witness: at 1000 milliseconds after the last permitted call,
analyzeData fails fast with the wait error and issues no network request,
while suggestChartWithAI on the same inputs still issues a request. -/
theorem analyzeData_gate_amended_witness :
    analyzeDataModel 1000 0 (some [[("a", Value.vNum 1)]]) (some [colInfoWit]) true netOkWit =
      ⟨Except.error (waitMessage (MIN_TIME_BETWEEN_CALLS - ((1000 : ℤ) - 0))), 0, 0⟩
    ∧ (dataIsEmpty (some [[("a", Value.vNum 1)]]) = false →
        colsIsEmpty (some [colInfoWit]) = false → true = true →
        1 ≤ (suggestChartWithAIModel 1000 0 (some [[("a", Value.vNum 1)]])
              (some [colInfoWit]) true netOkWit).networkAttempts) :=
  analyzeData_gate_amended 1000 0 (some [[("a", Value.vNum 1)]]) (some [colInfoWit])
    true netOkWit (by decide)

/-! ### Claims C3 and C5: column type inference -/

theorem inferColumn_name (sample : List Row) (col : String) :
    (inferColumn sample col).name = col := by
  simp only [inferColumn]
  split_ifs <;> rfl

theorem inferColumnTypes_cons (r0 : Row) (rest : List Row) :
    inferColumnTypes (some (r0 :: rest)) =
      (r0.map Prod.fst).map (inferColumn (sampleOf (r0 :: rest))) := rfl

theorem sampleOf_length (d : List Row) : (sampleOf d).length = min 100 d.length := by
  simp only [sampleOf, List.length_take]
  omega

/-- C5 counterexample: on a 101-row dataset whose only column is null in
every row, the inferred descriptor reports nullCount 100 (the sample
cap), not the 101 rows of the dataset. -/
theorem infer_nullCount_sample_capped :
    (inferColumnTypes (some nullColData101)).map ColumnInfo.nullCount = [100]
    ∧ nullColData101.length = 101 := ⟨rfl, rfl⟩

/-- C5 amended: a column that is null in every row is assigned type
string with nullCount equal to the number of sampled rows,
min(100, rowCount) -- which is the full row count only when the dataset
has at most 100 rows. -/
theorem infer_all_null_string_amended (d : List Row) (c : ColumnInfo)
    (hc : c ∈ inferColumnTypes (some d))
    (hall : ∀ r ∈ d, getV r c.name = Value.vNull) :
    c.type = "string" ∧ c.nullCount = min 100 d.length := by
  cases d with
  | nil => simp [inferColumnTypes] at hc
  | cons r0 rest =>
    rw [inferColumnTypes_cons] at hc
    rcases List.mem_map.mp hc with ⟨col, hcol, hceq⟩
    subst hceq
    rw [inferColumn_name] at hall
    have hfil : ((sampleOf (r0 :: rest)).map (fun r => getV r col)).filter
        (fun v => !(isEmptyish v)) = [] := by
      rw [List.filter_eq_nil_iff]
      intro v hv
      rcases List.mem_map.mp hv with ⟨r, hr, hveq⟩
      have hnull : getV r col = Value.vNull :=
        hall r (List.take_subset _ _ hr)
      rw [← hveq, hnull]
      simp [isEmptyish]
    constructor
    · simp only [inferColumn]
      rw [hfil]
      simp
    · simp only [inferColumn]
      rw [hfil]
      simp [sampleOf_length]

/-- C5 witness: on a one-row all-null dataset the sole descriptor is a
string column whose nullCount is min(100, 1) = 1, the row count. -/
theorem infer_all_null_string_amended_witness :
    (inferColumn (sampleOf nullColData) "a").type = "string"
    ∧ (inferColumn (sampleOf nullColData) "a").nullCount = min 100 nullColData.length :=
  infer_all_null_string_amended nullColData (inferColumn (sampleOf nullColData) "a")
    (List.mem_singleton.mpr rfl) (by decide)

/-- C3 counterexample: on a dataset whose single column is all null, the
code assigns type string, while the first predicate of the claimed
first-match cascade (all sampled non-null values strictly boolean) holds
vacuously, so the cascade assigns boolean: the classification is not the
first matching predicate of the cascade for this column. -/
theorem infer_all_null_not_first_match :
    (inferColumnTypes (some nullColData)).map ColumnInfo.type = ["string"]
    ∧ specClassifyColumn nullColData "a" = "boolean" := ⟨rfl, rfl⟩

theorem qMax_ten_of_le_100 (a : ℕ) (ha : a ≤ 100) :
    qMax 10 ((a : ℚ) * (1/10)) = 10 := by
  unfold qMax
  split_ifs with h
  · have haq : (a : ℚ) ≤ 100 := by exact_mod_cast ha
    linarith
  · rfl

/-- C3 amended: for every column with at least one non-null sampled
value, inferColumnTypes assigns exactly the first matching type of the
fixed cascade boolean, number, date, category, string written in the
specification (the all-null column is assigned string directly, before
the cascade). -/
theorem infer_first_match_amended (d : List Row) (c : ColumnInfo)
    (hc : c ∈ inferColumnTypes (some d))
    (hnn : nonNullOf d c.name ≠ []) :
    c.type = specClassifyColumn d c.name := by
  cases d with
  | nil => simp [inferColumnTypes] at hc
  | cons r0 rest =>
    rw [inferColumnTypes_cons] at hc
    rcases List.mem_map.mp hc with ⟨col, hcol, hceq⟩
    subst hceq
    rw [inferColumn_name] at hnn ⊢
    have hnn2 : ((sampleOf (r0 :: rest)).map (fun r => getV r col)).filter
        (fun v => !(isEmptyish v)) ≠ [] := hnn
    have hlen1 : (((sampleOf (r0 :: rest)).map (fun r => getV r col)).filter
        (fun v => !(isEmptyish v))).length ≤ 100 := by
      calc (((sampleOf (r0 :: rest)).map (fun r => getV r col)).filter
          (fun v => !(isEmptyish v))).length
          ≤ ((sampleOf (r0 :: rest)).map (fun r => getV r col)).length :=
            List.length_filter_le _ _
        _ = (sampleOf (r0 :: rest)).length := List.length_map _ _
        _ ≤ 100 := by rw [sampleOf_length]; omega
    have hlen2 : (sampleOf (r0 :: rest)).length ≤ 100 := by
      rw [sampleOf_length]; omega
    simp only [inferColumn, specClassifyColumn, specFirstMatch, nonNullOf]
    rw [if_neg hnn2]
    by_cases hb : (((sampleOf (r0 :: rest)).map (fun r => getV r col)).filter
        (fun v => !(isEmptyish v))).all isBoolValue = true
    · rw [if_pos hb, if_pos hb]
    · rw [if_neg hb, if_neg hb]
      by_cases hn : (((sampleOf (r0 :: rest)).map (fun r => getV r col)).filter
          (fun v => !(isEmptyish v))).all isNumericValue = true
      · rw [if_pos hn, if_pos hn]
      · rw [if_neg hn, if_neg hn]
        by_cases hd : (((sampleOf (r0 :: rest)).map (fun r => getV r col)).filter
            (fun v => !(isEmptyish v))).all isDateValue = true
        · rw [if_pos hd, if_pos hd]
        · rw [if_neg hd, if_neg hd]
          rw [qMax_ten_of_le_100 _ hlen1, qMax_ten_of_le_100 _ hlen2]
          by_cases hcat : ((distinctList (((sampleOf (r0 :: rest)).map
              (fun r => getV r col)).filter (fun v => !(isEmptyish v)))).length : ℚ) < 10
          · rw [if_pos hcat, if_pos hcat]
          · rw [if_neg hcat, if_neg hcat]

/-- C3 witness: a two-row boolean column has non-null sampled values and
its inferred type equals the specification cascade result (boolean). -/
theorem infer_first_match_amended_witness :
    (inferColumn (sampleOf boolColData) "flag").type =
      specClassifyColumn boolColData (inferColumn (sampleOf boolColData) "flag").name :=
  infer_first_match_amended boolColData (inferColumn (sampleOf boolColData) "flag")
    (List.mem_singleton.mpr rfl) (by decide)

/-! ### Claim C4: validateCSV structural-inconsistency policy -/

/-- C4 counterexample: a two-row dataset in which one row (50 percent,
above the 10 percent threshold) has a different key set than the header
row is rejected by validateCSV (valid = false with the
too-many-inconsistent-rows message), not merely flagged as a warning on a
valid result. -/
theorem validateCSV_rejects_inconsistent :
    (inconsistentEnum csvCexData (jsSortBy strCmpQ ["a", "b"])).length = 1
    ∧ (validateCSV (some csvCexData)).valid = false
    ∧ (validateCSV (some csvCexData)).message =
        "Too many inconsistent rows (1/2). Please check your CSV structure." := by
  have hg : (([[("a", Value.vNum 1), ("b", Value.vNum 2)], [("a", Value.vNum 3)]] :
        List Row).length : ℚ) * (1/10) <
      ((inconsistentEnum [[("a", Value.vNum 1), ("b", Value.vNum 2)], [("a", Value.vNum 3)]]
        (jsSortBy strCmpQ (([("a", Value.vNum 1), ("b", Value.vNum 2)] :
          Row).map Prod.fst))).length : ℚ) := by
    rw [show (inconsistentEnum [[("a", Value.vNum 1), ("b", Value.vNum 2)],
        [("a", Value.vNum 3)]] (jsSortBy strCmpQ (([("a", Value.vNum 1),
        ("b", Value.vNum 2)] : Row).map Prod.fst))).length = 1 from by decide]
    rw [show ([[("a", Value.vNum 1), ("b", Value.vNum 2)], [("a", Value.vNum 3)]] :
        List Row).length = 2 from rfl]
    norm_num
  refine ⟨by decide, ?_, ?_⟩ <;>
  · simp only [validateCSV, csvCexData]
    rw [if_neg (by decide), if_neg (by decide), if_pos hg]
    try rfl

/-- C4 amended: given a parseable dataset with a nonempty, non-blank
header row, validateCSV rejects (valid = false) when strictly more than
10 percent of rows have a key set different from the header row; at or
below that threshold the result is valid and the inconsistencies surface
only as warnings, and an empty-row ratio strictly above 20 percent adds
the ratio warning to that valid result. -/
theorem validateCSV_policy_amended (r0 : Row) (rest : List Row)
    (hcols : r0.map Prod.fst ≠ [])
    (hhdr : ∀ cn ∈ r0.map Prod.fst, ¬ trimStr cn = "") :
    ((((r0 :: rest).length : ℚ) * (1/10) <
        ((inconsistentEnum (r0 :: rest) (jsSortBy strCmpQ (r0.map Prod.fst))).length : ℚ) →
      (validateCSV (some (r0 :: rest))).valid = false)
    ∧ (((inconsistentEnum (r0 :: rest) (jsSortBy strCmpQ (r0.map Prod.fst))).length : ℚ) ≤
        ((r0 :: rest).length : ℚ) * (1/10) →
      (validateCSV (some (r0 :: rest))).valid = true
      ∧ (((r0 :: rest).length : ℚ) * (1/5) < ((emptyEnum (r0 :: rest)).length : ℚ) →
          emptyRowsRatioWarning (emptyEnum (r0 :: rest)).length (r0 :: rest).length
            ∈ (validateCSV (some (r0 :: rest))).warnings))) := by
  have hc2 : ¬ ((r0.map Prod.fst).filter (fun c => trimStr c = "") ≠ []) := by
    have : (r0.map Prod.fst).filter (fun c => trimStr c = "") = [] := by
      rw [List.filter_eq_nil_iff]
      intro a ha
      simpa using hhdr a ha
    exact fun hne => hne this
  constructor
  · intro h
    simp only [validateCSV]
    rw [if_neg hcols, if_neg hc2, if_pos h]
  · intro h
    have hno : ¬ (((r0 :: rest).length : ℚ) * (1/10) <
        ((inconsistentEnum (r0 :: rest) (jsSortBy strCmpQ (r0.map Prod.fst))).length : ℚ)) :=
      not_lt.mpr h
    constructor
    · simp only [validateCSV]
      rw [if_neg hcols, if_neg hc2, if_neg hno]
    · intro h2
      simp only [validateCSV]
      rw [if_neg hcols, if_neg hc2, if_neg hno]
      simp only [if_pos h2, List.mem_append]
      left
      left
      right
      simp

/-- C4 witness: a four-row single-column dataset with one all-empty row
(25 percent, above the 20 percent threshold) and no inconsistent rows
validates as valid = true and carries the empty-row ratio warning. -/
theorem validateCSV_policy_amended_witness :
    (validateCSV (some ([("a", Value.vNum 1)] ::
        [[("a", Value.vNull)], [("a", Value.vNum 2)], [("a", Value.vNum 3)]]))).valid = true
    ∧ emptyRowsRatioWarning
        (emptyEnum ([("a", Value.vNum 1)] ::
          [[("a", Value.vNull)], [("a", Value.vNum 2)], [("a", Value.vNum 3)]])).length
        ([("a", Value.vNum 1)] ::
          [[("a", Value.vNull)], [("a", Value.vNum 2)], [("a", Value.vNum 3)]]).length
        ∈ (validateCSV (some ([("a", Value.vNum 1)] ::
            [[("a", Value.vNull)], [("a", Value.vNum 2)], [("a", Value.vNum 3)]]))).warnings := by
  have h := (validateCSV_policy_amended [("a", Value.vNum 1)]
    [[("a", Value.vNull)], [("a", Value.vNum 2)], [("a", Value.vNum 3)]]
    (by decide) (by decide)).2
  have hinc : ((inconsistentEnum ([("a", Value.vNum 1)] ::
      [[("a", Value.vNull)], [("a", Value.vNum 2)], [("a", Value.vNum 3)]])
      (jsSortBy strCmpQ (([("a", Value.vNum 1)] : Row).map Prod.fst))).length : ℚ) ≤
      (([("a", Value.vNum 1)] ::
        [[("a", Value.vNull)], [("a", Value.vNum 2)], [("a", Value.vNum 3)]] :
          List Row).length : ℚ) * (1/10) := by
    rw [show (inconsistentEnum ([("a", Value.vNum 1)] ::
      [[("a", Value.vNull)], [("a", Value.vNum 2)], [("a", Value.vNum 3)]])
      (jsSortBy strCmpQ (([("a", Value.vNum 1)] : Row).map Prod.fst))).length = 0 from by decide]
    rw [show ([("a", Value.vNum 1)] ::
      [[("a", Value.vNull)], [("a", Value.vNum 2)], [("a", Value.vNum 3)]] :
        List Row).length = 4 from rfl]
    norm_num
  have h2 := h hinc
  refine ⟨h2.1, h2.2 ?_⟩
  rw [show (emptyEnum ([("a", Value.vNum 1)] ::
    [[("a", Value.vNull)], [("a", Value.vNum 2)], [("a", Value.vNum 3)]])).length = 1 from by decide]
  rw [show ([("a", Value.vNum 1)] ::
    [[("a", Value.vNull)], [("a", Value.vNum 2)], [("a", Value.vNum 3)]] :
      List Row).length = 4 from rfl]
  norm_num

/-! ### Claim C1: bar chart count aggregation -/

theorem barAdd_count_sum (key : String) (yv : ℚ) (gs : List BarGroup) :
    ((barAdd key yv gs).map BarGroup.count).sum = ((gs.map BarGroup.count).sum) + 1 := by
  induction gs with
  | nil => simp [barAdd]
  | cons g gs ih =>
    by_cases h : g.name = key
    · simp [barAdd, h]
      omega
    · simp [barAdd, h, ih]
      omega

theorem barStep_count_sum (x y : String) (acc : List BarGroup) (r : Row) :
    ((barStep x y acc r).map BarGroup.count).sum =
      ((acc.map BarGroup.count).sum) + (if barSkip x y r then 0 else 1) := by
  rcases hx : getV r x with _ | b | q | s <;>
    rcases hp : jsParseFloat (getV r y) with _ | v <;>
      simp [barStep, barSkip, hx, hp, barAdd_count_sum]

theorem barGroups_count_sum (d : List Row) (x y : String) :
    ((barGroups d x y).map BarGroup.count).sum =
      d.countP (fun r => !(barSkip x y r)) := by
  suffices h : ∀ acc : List BarGroup,
      (((d.foldl (barStep x y) acc).map BarGroup.count).sum) =
        ((acc.map BarGroup.count).sum) + d.countP (fun r => !(barSkip x y r)) by
    simpa [barGroups] using h []
  induction d with
  | nil => simp
  | cons r d ih =>
    intro acc
    rw [List.foldl_cons, ih, barStep_count_sum, List.countP_cons]
    cases hb : barSkip x y r <;> simp [hb] <;> omega

theorem barKeep_countP_split (x y : String) (d : List Row) :
    d.countP (fun r => !(barSkip x y r)) + d.countP (barSkip x y) = d.length := by
  induction d with
  | nil => simp
  | cons r d ih =>
    rw [List.countP_cons, List.countP_cons, List.length_cons]
    cases hb : barSkip x y r <;> simp [hb] <;> omega

theorem barAggregate_count (g : BarGroup) : barAggregate "count" g = (g.count : ℚ) := by
  simp only [barAggregate]
  rw [show toLowerStr "count" = "count" from rfl]
  rw [if_neg (by decide), if_neg (by decide), if_pos rfl]

theorem round2_natCast (n : ℕ) : round2 ((n : ℚ)) = (n : ℚ) := by
  have hfloor : ⌊(n : ℚ) * 100 + 1/2⌋ = (100 * n : ℤ) := by
    apply Int.floor_eq_iff.mpr
    constructor
    · push_cast
      linarith
    · push_cast
      linarith
  unfold round2
  rw [hfloor]
  push_cast
  ring

theorem barPoints_count_value_sum (gs : List BarGroup) :
    ((gs.map (barPointOf "count")).map BarPoint.value).sum =
      (((gs.map BarGroup.count).sum : ℕ) : ℚ) := by
  induction gs with
  | nil => simp
  | cons g gs ih =>
    simp only [List.map_cons, List.sum_cons, ih, barPointOf, barAggregate_count,
      round2_natCast]
    push_cast
    ring

/-- C1: for a valid bar configuration with aggregation count, the values
of the returned points sum to the number of rows of the dataset minus the
rows whose X value is null/undefined or whose Y value does not parse as a
number. -/
theorem bar_count_sum_eq_kept_rows (d : List Row) (x y : String)
    (hd : d ≠ []) (hx : x ≠ "") (hy : y ≠ "") :
    ((prepareBarChartData (some d) x y "count").map BarPoint.value).sum =
      ((d.length - d.countP (barSkip x y) : ℕ) : ℚ) := by
  simp only [prepareBarChartData]
  rw [if_neg hd, if_neg hx, if_neg hy]
  have hperm : ((jsSortBy (fun a b => b.value - a.value)
      ((barGroups d x y).map (barPointOf "count"))).map BarPoint.value).sum =
      (((barGroups d x y).map (barPointOf "count")).map BarPoint.value).sum :=
    List.Perm.sum_eq (List.Perm.map BarPoint.value (jsSortBy_perm _ _))
  rw [hperm, barPoints_count_value_sum, barGroups_count_sum]
  have hsplit := barKeep_countP_split x y d
  have heq : d.countP (fun r => !(barSkip x y r)) =
      d.length - d.countP (barSkip x y) := by omega
  rw [heq]

/-- C1 witness: on a three-row dataset in which one row has a null X and
one row has a boolean (unparseable) Y, the count bar values sum to
3 - 2 = 1. -/
theorem bar_count_sum_eq_kept_rows_witness :
    ((prepareBarChartData (some barWitData) "a" "b" "count").map BarPoint.value).sum =
      ((barWitData.length - barWitData.countP (barSkip "a" "b") : ℕ) : ℚ) :=
  bar_count_sum_eq_kept_rows barWitData "a" "b" (by decide) (by decide) (by decide)

/-! ### Claim C2: pie chart top-N collapse -/

theorem piePoint_value_div100 (d : List Row) (cat : String) (vc : Option String) :
    ∀ p ∈ piePointsAll d cat vc, ∃ n : ℤ, p.value = (n : ℚ) / 100 := by
  intro p hp
  rw [piePointsAll, mem_jsSortBy] at hp
  rcases List.mem_map.mp hp with ⟨g, hg, hpe⟩
  subst hpe
  cases vc with
  | some c => exact ⟨⌊g.sum * 100 + 1/2⌋, rfl⟩
  | none =>
    refine ⟨100 * g.count, ?_⟩
    push_cast
    ring

theorem sum_div100 (L : List PiePoint)
    (h : ∀ p ∈ L, ∃ n : ℤ, p.value = (n : ℚ) / 100) :
    ∃ N : ℤ, (L.map PiePoint.value).sum = (N : ℚ) / 100 := by
  induction L with
  | nil => exact ⟨0, by simp⟩
  | cons p L ih =>
    rcases h p (List.mem_cons_self p L) with ⟨n, hn⟩
    rcases ih (fun q hq => h q (List.mem_cons_of_mem p hq)) with ⟨N, hN⟩
    refine ⟨n + N, ?_⟩
    simp only [List.map_cons, List.sum_cons, hn, hN]
    push_cast
    ring

theorem round2_div100 (n : ℤ) : round2 ((n : ℚ) / 100) = (n : ℚ) / 100 := by
  have h1 : ((n : ℚ) / 100) * 100 + 1/2 = (n : ℚ) + 1/2 := by
    field_simp
  have hfloor : ⌊((n : ℚ) / 100) * 100 + 1/2⌋ = n := by
    rw [h1]
    apply Int.floor_eq_iff.mpr
    constructor
    · linarith
    · linarith
  unfold round2
  rw [hfloor]

theorem length_jsSortBy {α : Type} (c : α → α → ℚ) (l : List α) :
    (jsSortBy c l).length = l.length := (jsSortBy_perm c l).length_eq

/-- C2 counterexample: with topN = 0 (and three groups, so more groups
than topN), preparePieChartData performs no collapse at all -- the zero
topN is falsy in the source guard -- and returns all three group points,
not the claimed 0 + 1 = 1 Others-only point. -/
theorem pie_topN_zero_no_collapse :
    (preparePieChartData (some pieWitData) "c" none (some 0)).length = 3
    ∧ ¬ (preparePieChartData (some pieWitData) "c" none (some 0)).length = 0 + 1 := by
  have hbase : preparePieChartData (some pieWitData) "c" none (some 0) =
      piePointsAll pieWitData "c" none := by
    simp only [preparePieChartData]
    rw [if_neg (by decide), if_neg (by decide), if_neg (by simp)]
  have hlen : (piePointsAll pieWitData "c" none).length = 3 := by
    rw [piePointsAll, length_jsSortBy, List.length_map]
    decide
  rw [hbase, hlen]
  omega

/-- C2 amended: for topN = k with k at least 1, when grouping produces
more than k groups the output is exactly the k largest points of the
descending-sorted group list followed by a point named Others whose value
is the sum of the excluded points values (the 2-decimal rounding applied
by the source is the identity there, since every group value is a
multiple of 1/100), for k + 1 points in total. -/
theorem pie_others_collapse_amended (d : List Row) (cat : String) (vc : Option String)
    (k : ℕ) (hk : 1 ≤ k)
    (hn : k < (preparePieChartData (some d) cat vc none).length) :
    preparePieChartData (some d) cat vc (some k) =
      (preparePieChartData (some d) cat vc none).take k ++
        [⟨"Others",
          (((preparePieChartData (some d) cat vc none).drop k).map PiePoint.value).sum⟩]
    ∧ (preparePieChartData (some d) cat vc (some k)).length = k + 1 := by
  have hd : d ≠ [] := by
    intro h
    rw [h] at hn
    simp [preparePieChartData] at hn
  have hcat : cat ≠ "" := by
    intro h
    rw [h] at hn
    by_cases hde : d = []
    · rw [hde] at hn
      simp [preparePieChartData] at hn
    · simp only [preparePieChartData] at hn
      rw [if_neg hde] at hn
      simp at hn
  have hbase : preparePieChartData (some d) cat vc none = piePointsAll d cat vc := by
    simp only [preparePieChartData]
    rw [if_neg hd, if_neg hcat]
  rw [hbase] at hn
  have hcall : preparePieChartData (some d) cat vc (some k) =
      (piePointsAll d cat vc).take k ++
        [⟨"Others",
          round2 ((((piePointsAll d cat vc).drop k).map PiePoint.value).sum)⟩] := by
    simp only [preparePieChartData]
    rw [if_neg hd, if_neg hcat, if_pos ⟨by omega, hn⟩]
  have hdropvals : ∀ p ∈ (piePointsAll d cat vc).drop k,
      ∃ n : ℤ, p.value = (n : ℚ) / 100 := fun p hp =>
    piePoint_value_div100 d cat vc p (List.drop_subset k _ hp)
  rcases sum_div100 _ hdropvals with ⟨N, hN⟩
  have hround : round2 ((((piePointsAll d cat vc).drop k).map PiePoint.value).sum) =
      (((piePointsAll d cat vc).drop k).map PiePoint.value).sum := by
    rw [hN, round2_div100]
  constructor
  · rw [hbase, hcall, hround]
  · rw [hcall]
    simp only [List.length_append, List.length_take, List.length_cons, List.length_nil]
    omega

/-- C2 witness: on a dataset with three categories (counts 2, 1, 1) and
topN = 1, the output is the top point plus an Others point summing the
two excluded values, 2 points in total. -/
theorem pie_others_collapse_amended_witness :
    preparePieChartData (some pieWitData) "c" none (some 1) =
      (preparePieChartData (some pieWitData) "c" none none).take 1 ++
        [⟨"Others",
          (((preparePieChartData (some pieWitData) "c" none none).drop 1).map
            PiePoint.value).sum⟩]
    ∧ (preparePieChartData (some pieWitData) "c" none (some 1)).length = 1 + 1 := by
  have hn : (1 : ℕ) < (preparePieChartData (some pieWitData) "c" none none).length := by
    have hbase : preparePieChartData (some pieWitData) "c" none none =
        piePointsAll pieWitData "c" none := by
      simp only [preparePieChartData]
      rw [if_neg (by decide), if_neg (by decide)]
    rw [hbase, piePointsAll, length_jsSortBy, List.length_map]
    decide
  exact pie_others_collapse_amended pieWitData "c" none 1 (by omega) hn

/-! ### Claim C8: line chart ordering -/

theorem charListCmp_antisymm (a b : List Char) :
    charListCmp a b = -(charListCmp b a) := by
  induction a generalizing b with
  | nil => cases b <;> simp [charListCmp]
  | cons x xs ih =>
    cases b with
    | nil => simp [charListCmp]
    | cons y ys =>
      by_cases h1 : x < y <;> by_cases h2 : y < x
      · exact absurd h2 (lt_asymm h1)
      · simp [charListCmp, h1, h2]
      · simp [charListCmp, h1, h2]
      · simp [charListCmp, h1, h2, ih ys]

theorem charListCmp_le_trans (a b c : List Char) (hab : charListCmp a b ≤ 0)
    (hbc : charListCmp b c ≤ 0) : charListCmp a c ≤ 0 := by
  induction a generalizing b c with
  | nil => cases c <;> simp [charListCmp]
  | cons x xs ih =>
    cases b with
    | nil => simp [charListCmp] at hab
    | cons y ys =>
      cases c with
      | nil => simp [charListCmp] at hbc
      | cons z zs =>
        simp only [charListCmp] at hab hbc ⊢
        by_cases h1 : x < y
        · by_cases h2 : y < z
          · simp [lt_trans h1 h2]
          · by_cases h3 : z < y
            · simp [h2, h3] at hbc
            · have hyz : y = z := le_antisymm (not_lt.mp h3) (not_lt.mp h2)
              subst hyz
              simp [h1]
        · by_cases h4 : y < x
          · simp [h1, h4] at hab
          · have hxy : x = y := le_antisymm (not_lt.mp h4) (not_lt.mp h1)
            subst hxy
            simp only [lt_irrefl, if_false] at hab ⊢
            by_cases h2 : x < z
            · simp [h2]
            · by_cases h3 : z < x
              · simp [h2, h3] at hbc
              · have hxz : x = z := le_antisymm (not_lt.mp h3) (not_lt.mp h2)
                subst hxz
                simp only [lt_irrefl, if_false] at hbc ⊢
                exact ih ys zs hab hbc

theorem strCmpQ_antisymm (s t : String) : strCmpQ s t = -(strCmpQ t s) := by
  simp only [strCmpQ]
  rw [charListCmp_antisymm]
  push_cast
  ring

theorem lineCmp_flip : ∀ a b : LinePoint, lineCmp a b = -(lineCmp b a) := by
  intro a b
  rcases ha : jsNewDateV a.date with _ | da <;>
    rcases hb : jsNewDateV b.date with _ | db
  · simp only [lineCmp, ha, hb]
    exact strCmpQ_antisymm _ _
  · simp only [lineCmp, ha, hb]
    exact strCmpQ_antisymm _ _
  · simp only [lineCmp, ha, hb]
    exact strCmpQ_antisymm _ _
  · simp only [lineCmp, ha, hb]
    push_cast
    ring

theorem chainAll_dateLeB_sorted (M : List LinePoint)
    (hall : ∀ p ∈ jsSortBy lineCmp M, (jsNewDateV p.date).isSome = true) :
    chainAll dateLeB (jsSortBy lineCmp M) = true := by
  have hallM : ∀ p ∈ M, (jsNewDateV p.date).isSome = true := fun p hp =>
    hall p (mem_jsSortBy.mpr hp)
  have htr : ∀ a b d : LinePoint, a ∈ M → b ∈ M → d ∈ M →
      lineCmp a b ≤ 0 → lineCmp b d ≤ 0 → lineCmp a d ≤ 0 := by
    intro a b d hA hB hD hab hbd
    rcases Option.isSome_iff_exists.mp (hallM a hA) with ⟨ta, hta⟩
    rcases Option.isSome_iff_exists.mp (hallM b hB) with ⟨tb, htb⟩
    rcases Option.isSome_iff_exists.mp (hallM d hD) with ⟨td, htd⟩
    simp only [lineCmp, hta, htb] at hab
    simp only [lineCmp, htb, htd] at hbd
    simp only [lineCmp, hta, htd]
    have h1 : (ta - tb : ℤ) ≤ 0 := by exact_mod_cast hab
    have h2 : (tb - td : ℤ) ≤ 0 := by exact_mod_cast hbd
    have h3 : (ta - td : ℤ) ≤ 0 := by omega
    exact_mod_cast h3
  have hp := pairwise_jsSortBy lineCmp_flip M htr
  rw [chainAll_iff_pairwise]
  refine List.Pairwise.imp_of_mem ?_ hp
  intro a b ha hb hR
  rcases Option.isSome_iff_exists.mp (hall a ha) with ⟨ta, hta⟩
  rcases Option.isSome_iff_exists.mp (hall b hb) with ⟨tb, htb⟩
  simp only [lineCmp, hta, htb] at hR
  have h1 : (ta - tb : ℤ) ≤ 0 := by exact_mod_cast hR
  simp only [dateLeB, hta, htb, Option.getD_some, decide_eq_true_eq]
  omega

theorem chainAll_lexLeB_sorted (M : List LinePoint)
    (hall : ∀ p ∈ jsSortBy lineCmp M, jsNewDateV p.date = none) :
    chainAll lexLeB (jsSortBy lineCmp M) = true := by
  have hallM : ∀ p ∈ M, jsNewDateV p.date = none := fun p hp =>
    hall p (mem_jsSortBy.mpr hp)
  have htr : ∀ a b d : LinePoint, a ∈ M → b ∈ M → d ∈ M →
      lineCmp a b ≤ 0 → lineCmp b d ≤ 0 → lineCmp a d ≤ 0 := by
    intro a b d hA hB hD hab hbd
    simp only [lineCmp, hallM a hA, hallM b hB] at hab
    simp only [lineCmp, hallM b hB, hallM d hD] at hbd
    simp only [lineCmp, hallM a hA, hallM d hD]
    simp only [strCmpQ] at hab hbd ⊢
    have h1 : charListCmp a.name.data b.name.data ≤ 0 := by exact_mod_cast hab
    have h2 : charListCmp b.name.data d.name.data ≤ 0 := by exact_mod_cast hbd
    exact_mod_cast charListCmp_le_trans _ _ _ h1 h2
  have hp := pairwise_jsSortBy lineCmp_flip M htr
  rw [chainAll_iff_pairwise]
  refine List.Pairwise.imp_of_mem ?_ hp
  intro a b ha hb hR
  simp only [lineCmp, hall a ha, hall b hb, strCmpQ] at hR
  simp only [lexLeB, decide_eq_true_eq]
  exact_mod_cast hR

/-- C8 counterexample: with keys 2020-1-5 and 2020-01-06 (both parse as
dates, and their date order is the reverse of their code-unit order) plus
the unparseable key banana, not all keys parse as dates, yet the output
of prepareLineChartData is not sorted lexicographically by key: the pair
of parseable keys is still compared by parsed date. -/
theorem line_sort_mixed_not_lex :
    ¬ (∀ p ∈ prepareLineChartData (some lineCexData) "d" "v" "avg",
        (jsNewDateV p.date).isSome = true)
    ∧ chainAll lexLeB (prepareLineChartData (some lineCexData) "d" "v" "avg") = false := by
  constructor
  · decide
  · decide

/-- C8 amended: the points of prepareLineChartData are sorted ascending
by parsed date when all group keys parse as dates, and sorted
lexicographically (code-unit order) by key when no group key parses as a
date; when parseable and unparseable keys mix, pairs of parseable keys
still compare by date, so the output need not be lexicographically
sorted. -/
theorem line_sort_amended (data : Option (List Row)) (x y agg : String) :
    ((∀ p ∈ prepareLineChartData data x y agg, (jsNewDateV p.date).isSome = true) →
        chainAll dateLeB (prepareLineChartData data x y agg) = true)
    ∧ ((∀ p ∈ prepareLineChartData data x y agg, jsNewDateV p.date = none) →
        chainAll lexLeB (prepareLineChartData data x y agg) = true) := by
  cases data with
  | none => simp [prepareLineChartData, chainAll]
  | some d =>
    by_cases hd : d = []
    · simp [prepareLineChartData, hd, chainAll]
    · by_cases hx : x = ""
      · simp [prepareLineChartData, hd, hx, chainAll]
      · by_cases hy : y = ""
        · simp [prepareLineChartData, hd, hx, hy, chainAll]
        · have heq : prepareLineChartData (some d) x y agg =
              jsSortBy lineCmp ((lineGroups d x y).map (linePointOf agg)) := by
            simp only [prepareLineChartData]
            rw [if_neg hd, if_neg hx, if_neg hy]
          rw [heq]
          exact ⟨fun hall => chainAll_dateLeB_sorted _ hall,
            fun hall => chainAll_lexLeB_sorted _ hall⟩

/-- C8 witness: a one-row dataset with the parseable date key 2020-1-5
satisfies the all-keys-parse hypothesis and its output is sorted
ascending by parsed date. -/
theorem line_sort_amended_witness :
    chainAll dateLeB (prepareLineChartData (some lineWitData) "d" "v" "avg") = true :=
  (line_sort_amended (some lineWitData) "d" "v" "avg").1 (by decide)
